import Mathlib

/-!
Verification development for the doxy2mdx core: a shallow embedding of the
XML parser (XmlParser.cpp) and the MDX renderer (Converter.cpp), with
theorems about the claims of the specification.
-/

set_option maxRecDepth 10000
set_option maxHeartbeats 4000000

namespace Doxy2Mdx

/-! ## Data model (XmlParser.hpp) -/

structure XmlAttribute where
  name : String
  value : String
deriving Repr, DecidableEq

inductive XmlNode where
  | mk (name : String) (text : String) (attributes : List XmlAttribute) (children : List XmlNode)
deriving Repr

def XmlNode.name : XmlNode → String
  | .mk n _ _ _ => n

def XmlNode.text : XmlNode → String
  | .mk _ t _ _ => t

def XmlNode.attributes : XmlNode → List XmlAttribute
  | .mk _ _ a _ => a

def XmlNode.children : XmlNode → List XmlNode
  | .mk _ _ _ c => c

/-- Embeds `XmlNode::attr`: first attribute with the given name, if any. -/
def XmlNode.attr? (n : XmlNode) (key : String) : Option XmlAttribute :=
  List.find? (fun a => a.name == key) n.attributes

/-- Embeds `XmlNode::child`: first child with the given name, if any. -/
def XmlNode.child? (n : XmlNode) (key : String) : Option XmlNode :=
  List.find? (fun c => c.name == key) n.children

/-- Embeds `XmlNode::childrenNamed`: all children with the given name, in order. -/
def XmlNode.childrenNamed (n : XmlNode) (key : String) : List XmlNode :=
  List.filter (fun c => c.name == key) n.children

/-! ## Parser (XmlParser.cpp) -/

inductive ParseError where
  | outOfFuel
  | unexpectedEof
  | expectedLt
  | expectedEq
  | expectedQuote
  | unterminatedAttr
  | mismatchedTag (endName : String) (openName : String)
  | expectedGt
  | expectedGtClose
deriving Repr, DecidableEq

/-- Embeds `XmlParser::decodeEntities` (a single left-to-right pass; the
five branch tests mirror the `substr` comparisons in source order). -/
def decodeEntities : List Char → List Char
  | [] => []
  | '&' :: 'l' :: 't' :: ';' :: rest => '<' :: decodeEntities rest
  | '&' :: 'g' :: 't' :: ';' :: rest => '>' :: decodeEntities rest
  | '&' :: 'a' :: 'm' :: 'p' :: ';' :: rest => '&' :: decodeEntities rest
  | '&' :: 'q' :: 'u' :: 'o' :: 't' :: ';' :: rest => '"' :: decodeEntities rest
  | '&' :: 'a' :: 'p' :: 'o' :: 's' :: ';' :: rest => '\'' :: decodeEntities rest
  | '&' :: rest => '&' :: decodeEntities rest
  | c :: rest => c :: decodeEntities rest

/-- The whitespace class of C `isspace` used by `XmlParser::skipWhitespace`. -/
def isSpaceChar (c : Char) : Bool :=
  c = ' ' || c = '\t' || c = '\n' || c = '\x0b' || c = '\x0c' || c = '\r'

/-- Embeds `XmlParser::skipWhitespace`. -/
def skipWs (s : List Char) : List Char :=
  List.dropWhile isSpaceChar s

/-- The character class accepted by `XmlParser::parseName`. -/
def isNameChar (c : Char) : Bool :=
  c.isAlphanum || c = '_' || c = '-' || c = ':'

/-- Embeds `XmlParser::parseName`: longest prefix of name characters. -/
def parseName (s : List Char) : String × List Char :=
  (String.mk (List.takeWhile isNameChar s), List.dropWhile isNameChar s)

/-- Embeds `XmlParser::parseUntil`: text before the first occurrence of
`marker`, and the remaining input starting at the marker; fails when the
marker does not occur before the end of input. -/
def parseUntil (marker : List Char) : List Char → Except ParseError (List Char × List Char)
  | [] =>
    if List.isPrefixOf marker [] then .ok ([], []) else .error .unexpectedEof
  | c :: rest =>
    if List.isPrefixOf marker (c :: rest) then .ok ([], c :: rest)
    else Except.map (fun p => (c :: p.1, p.2)) (parseUntil marker rest)

/-- The flush of the coalesced `textBuffer` into a decoded text-node child
(lines 176-179, 193-196 and 202-204 of XmlParser.cpp). -/
def flushText (buf : List Char) (acc : List XmlNode) : List XmlNode :=
  if buf.isEmpty then acc
  else acc ++ [XmlNode.mk "#text" (String.mk (decodeEntities buf)) [] []]

mutual

/-- Embeds `XmlParser::parseNode`. `fuel` only bounds recursion depth; the
top-level entry point supplies more than any input can consume. -/
def parseNode (fuel : Nat) (s : List Char) : Except ParseError (XmlNode × List Char) :=
  match fuel with
  | 0 => .error .outOfFuel
  | fuel + 1 =>
    match s with
    | '<' :: r0 =>
      if List.isPrefixOf ('!' :: '-' :: '-' :: []) r0 then
        match parseUntil ('-' :: '-' :: '>' :: []) (r0.drop 3) with
        | .error e => .error e
        | .ok (_, r1) => parseNode fuel (skipWs (r1.drop 3))
      else if List.isPrefixOf ('!' :: '[' :: 'C' :: 'D' :: 'A' :: 'T' :: 'A' :: '[' :: []) r0 then
        match parseUntil (']' :: ']' :: '>' :: []) (r0.drop 8) with
        | .error e => .error e
        | .ok (txt, r1) => .ok (XmlNode.mk "#text" (String.mk txt) [] [], r1.drop 3)
      else
        let (name, r1) := parseName r0
        match parseAttrs fuel [] (skipWs r1) with
        | .error e => .error e
        | .ok (attrs, r2) =>
          if List.isPrefixOf ('/' :: '>' :: []) r2 then
            .ok (XmlNode.mk name "" attrs [], r2.drop 2)
          else
            match r2 with
            | '>' :: r3 =>
              match parseContent fuel name [] [] r3 with
              | .error e => .error e
              | .ok (children, r4) => .ok (XmlNode.mk name "" attrs children, r4)
            | _ => .error .expectedGt
    | _ => .error .expectedLt

/-- Embeds the attribute loop of `XmlParser::parseNode` (lines 130-150). -/
def parseAttrs (fuel : Nat) (attrs : List XmlAttribute) (s : List Char) :
    Except ParseError (List XmlAttribute × List Char) :=
  match fuel with
  | 0 => .error .outOfFuel
  | fuel + 1 =>
    if s.isEmpty || List.isPrefixOf ('>' :: []) s || List.isPrefixOf ('/' :: '>' :: []) s then
      .ok (attrs, s)
    else
      let (attrName, r1) := parseName s
      match skipWs r1 with
      | '=' :: r2 =>
        match skipWs r2 with
        | q :: r3 =>
          if q = '"' ∨ q = '\'' then
            let value := List.takeWhile (fun c => c ≠ q) r3
            match List.dropWhile (fun c => c ≠ q) r3 with
            | _ :: r4 =>
              parseAttrs fuel (attrs ++ [⟨attrName, String.mk (decodeEntities value)⟩]) (skipWs r4)
            | [] => .error .unterminatedAttr
          else .error .expectedQuote
        | [] => .error .expectedQuote
      | _ => .error .expectedEq

/-- Embeds the content loop of `XmlParser::parseNode` (lines 161-206):
`buf` is the pending coalesced character data, `acc` the children built so
far; returns the final child list and the input after the closing tag. -/
def parseContent (fuel : Nat) (name : String) (buf : List Char) (acc : List XmlNode)
    (s : List Char) : Except ParseError (List XmlNode × List Char) :=
  match fuel with
  | 0 => .error .outOfFuel
  | fuel + 1 =>
    match s with
    | [] => .ok (flushText buf acc, [])
    | '<' :: '/' :: r0 =>
      let (endName, r1) := parseName r0
      if endName ≠ name then .error (.mismatchedTag endName name)
      else
        match skipWs r1 with
        | '>' :: r2 => .ok (flushText buf acc, r2)
        | _ => .error .expectedGtClose
    | '<' :: '!' :: '[' :: 'C' :: 'D' :: 'A' :: 'T' :: 'A' :: '[' :: r0 =>
      match parseUntil (']' :: ']' :: '>' :: []) r0 with
      | .error e => .error e
      | .ok (cd, r1) =>
        parseContent fuel name []
          (flushText buf acc ++ [XmlNode.mk "#text" (String.mk cd) [] []]) (r1.drop 3)
    | '<' :: '!' :: '-' :: '-' :: r0 =>
      match parseUntil ('-' :: '-' :: '>' :: []) r0 with
      | .error e => .error e
      | .ok (_, r1) => parseContent fuel name buf acc (r1.drop 3)
    | '<' :: r0 =>
      match parseNode fuel ('<' :: r0) with
      | .error e => .error e
      | .ok (child, r1) => parseContent fuel name [] (flushText buf acc ++ [child]) r1
    | c :: r0 => parseContent fuel name (buf ++ [c]) acc r0

end

/-- Embeds `XmlParser::parse`: optional `<?...?>` prologue, optional
doctype, then the root node. Trailing input after the root is ignored,
as in the source. -/
def parse (input : String) : Except ParseError XmlNode :=
  let s0 := skipWs input.toList
  let step1 : Except ParseError (List Char) :=
    if List.isPrefixOf ('<' :: '?' :: []) s0 then
      match parseUntil ('?' :: '>' :: []) s0 with
      | .error e => .error e
      | .ok (_, r) => .ok (skipWs (r.drop 2))
    else .ok s0
  match step1 with
  | .error e => .error e
  | .ok s1 =>
    let step2 : Except ParseError (List Char) :=
      if List.isPrefixOf "<!DOCTYPE".toList s1 then
        match parseUntil ('>' :: []) s1 with
        | .error e => .error e
        | .ok (_, r) => .ok (skipWs (r.drop 1))
      else .ok s1
    match step2 with
    | .error e => .error e
    | .ok s2 =>
      match parseNode (2 * s2.length + 16) s2 with
      | .error e => .error e
      | .ok (node, _) => .ok node

/-! ## Renderer (Converter.cpp) -/

/-- Embeds `Config` (Config.hpp); the renderer reads only `headingOffset`. -/
structure Config where
  inputXmlDir : String := ""
  outputMdxDir : String := ""
  cssOutputPath : String := ""
  projectName : String := ""
  headingOffset : Int := 0
  emitIndex : Bool := true

/-- Embeds the `heading` helper of Converter.cpp: `level + offset` clamped
to `[1, 6]`, rendered as that many `#` characters. -/
def heading (level : Int) (offset : Int) : String :=
  let l0 := level + offset
  let l1 := if l0 < 1 then 1 else l0
  let l2 := if l1 > 6 then 6 else l1
  String.mk (List.replicate l2.toNat '#')

/-- The size of a node dominates the size of its child list (termination
helper for the recursive tree walks). -/
def sizeOfChildrenLt (n : XmlNode) : sizeOf n.children < sizeOf n := by
  cases n with
  | mk name text attrs children =>
    simp only [XmlNode.children, XmlNode.mk.sizeOf_spec]
    omega

mutual

/-- Embeds the `nodeText` helper of Converter.cpp: concatenation of all
descendant text. -/
def nodeText (node : XmlNode) : String :=
  if node.name = "#text" then node.text
  else nodeTextList node.children
termination_by sizeOf node
decreasing_by
  have := sizeOfChildrenLt node
  omega

/-- The accumulation loop of `nodeText` over a child list. -/
def nodeTextList : List XmlNode → String
  | [] => ""
  | c :: cs => nodeText c ++ nodeTextList cs
termination_by l => sizeOf l
decreasing_by
all_goals (simp only [List.cons.sizeOf_spec]; omega)

end

/-- One cell sequence of `Converter::renderTable` (lines 174-176). -/
def renderCells (header : Bool) : List String → String
  | [] => ""
  | cell :: rest =>
    (if header then "<th>" else "<td>") ++ cell ++ (if header then "</th>" else "</td>") ++
      renderCells header rest

/-- One `<tr>` line of `Converter::renderTable` (lines 172-177). -/
def renderRow (header : Bool) (cells : List String) : String :=
  "<tr>" ++ renderCells header cells ++ "</tr>\n"

/-- The row loop of `Converter::renderTable` (lines 171-178), with `r` the
running row index; the first row (`r == 0`) is the header row. -/
def renderTableRows : Nat → List (List String) → String
  | _, [] => ""
  | r, cells :: rest => renderRow (r == 0) cells ++ renderTableRows (r + 1) rest

mutual

/-- Embeds `Converter::renderNodeInline`: the per-tag dispatch. -/
def renderNodeInline (node : XmlNode) : String :=
  if node.name = "#text" then node.text
  else if node.name = "bold" then "**" ++ nodeText node ++ "**"
  else if node.name = "emphasis" then "*" ++ nodeText node ++ "*"
  else if node.name = "computeroutput" then "`" ++ nodeText node ++ "`"
  else if node.name = "ref" then
    let label := nodeText node
    let anchor := match node.attr? "refid" with
      | some a => a.value
      | none => label
    "[" ++ label ++ "](#" ++ anchor ++ ")"
  else if node.name = "itemizedlist" then "\n" ++ renderList node "-" ++ "\n"
  else if node.name = "orderedlist" then "\n" ++ renderList node "1." ++ "\n"
  else if node.name = "table" then "\n" ++ renderTable node ++ "\n"
  else if node.name = "programlisting" then "\n" ++ renderCode node ++ "\n"
  else if node.name = "para" then renderPara node
  else wrapUnknown node
termination_by 2 * sizeOf node + 1
decreasing_by
all_goals omega

/-- The inline-rendering accumulation loop (`for c : out << renderNodeInline(c)`)
shared by `renderPara`, `renderCode`, `renderTable` cells and `wrapUnknown`. -/
def renderInlineList : List XmlNode → String
  | [] => ""
  | c :: cs => renderNodeInline c ++ renderInlineList cs
termination_by l => 2 * sizeOf l
decreasing_by
all_goals (simp only [List.cons.sizeOf_spec]; omega)

/-- Embeds `Converter::renderPara`. -/
def renderPara (node : XmlNode) : String :=
  renderInlineList node.children
termination_by 2 * sizeOf node
decreasing_by
  have := sizeOfChildrenLt node
  omega

/-- The cell loop of `Converter::renderTable` (lines 157-165): rendered
contents of the `entry` children, in order. -/
def collectCells : List XmlNode → List String
  | [] => []
  | e :: rest =>
    if e.name = "entry" then renderInlineList e.children :: collectCells rest
    else collectCells rest
termination_by l => 2 * sizeOf l
decreasing_by
all_goals (first
  | (simp only [List.cons.sizeOf_spec]; omega)
  | (have hlt := sizeOfChildrenLt c; simp only [List.cons.sizeOf_spec]; omega))

/-- The row loop of `Converter::renderTable` (lines 154-167): kept rows
(`row` children whose cell list is nonempty), each as its cell strings. -/
def collectRows : List XmlNode → List (List String)
  | [] => []
  | row :: rest =>
    if row.name = "row" then
      let cells := collectCells row.children
      if cells.isEmpty then collectRows rest else cells :: collectRows rest
    else collectRows rest
termination_by l => 2 * sizeOf l
decreasing_by
all_goals (first
  | (simp only [List.cons.sizeOf_spec]; omega)
  | (have hlt := sizeOfChildrenLt c; simp only [List.cons.sizeOf_spec]; omega))

/-- Embeds `Converter::renderTable`. -/
def renderTable (node : XmlNode) : String :=
  let rows := collectRows node.children
  if rows.isEmpty then ""
  else "<table class=\"doxygen-table\">\n" ++ renderTableRows 0 rows ++ "</table>\n"
termination_by 2 * sizeOf node
decreasing_by
  have := sizeOfChildrenLt node
  omega

/-- The item-content loop of `Converter::renderList` (lines 188-194). -/
def renderListItemChildren : List XmlNode → String
  | [] => ""
  | c :: cs =>
    (if c.name = "para" then renderPara c else renderNodeInline c) ++ renderListItemChildren cs
termination_by l => 2 * sizeOf l
decreasing_by
all_goals (simp only [List.cons.sizeOf_spec]; omega)

/-- The item loop of `Converter::renderList` (lines 185-196). -/
def renderListItems (bullet : String) : List XmlNode → String
  | [] => ""
  | item :: rest =>
    (if item.name = "listitem" then
      bullet ++ " " ++ renderListItemChildren item.children ++ "\n"
     else "") ++ renderListItems bullet rest
termination_by l => 2 * sizeOf l
decreasing_by
all_goals (first
  | (simp only [List.cons.sizeOf_spec]; omega)
  | (have hlt := sizeOfChildrenLt c; simp only [List.cons.sizeOf_spec]; omega))

/-- Embeds `Converter::renderList`. -/
def renderList (node : XmlNode) (bullet : String) : String :=
  renderListItems bullet node.children
termination_by 2 * sizeOf node
decreasing_by
  have := sizeOfChildrenLt node
  omega

/-- The code-line loop of `Converter::renderCode` (lines 203-209). -/
def renderCodeLines : List XmlNode → String
  | [] => ""
  | cl :: rest =>
    (if cl.name = "codeline" then renderInlineList cl.children ++ "\n" else "") ++
      renderCodeLines rest
termination_by l => 2 * sizeOf l
decreasing_by
all_goals (first
  | (simp only [List.cons.sizeOf_spec]; omega)
  | (have hlt := sizeOfChildrenLt c; simp only [List.cons.sizeOf_spec]; omega))

/-- Embeds `Converter::renderCode`. -/
def renderCode (node : XmlNode) : String :=
  "```cpp\n" ++ renderCodeLines node.children ++ "```\n"
termination_by 2 * sizeOf node
decreasing_by
  have := sizeOfChildrenLt node
  omega

/-- Embeds `Converter::wrapUnknown`: the deterministic generic block
wrapper with class `doxygen-` followed by the tag name. -/
def wrapUnknown (node : XmlNode) : String :=
  "<div class=\"doxygen-" ++ node.name ++ "\">" ++ renderInlineList node.children ++ "</div>"
termination_by 2 * sizeOf node
decreasing_by
  have := sizeOfChildrenLt node
  omega

end

/-- The child loop of `Converter::renderDescription` (lines 132-140). -/
def renderDescChildren : List XmlNode → String
  | [] => ""
  | child :: rest =>
    (if child.name = "para" then renderPara child ++ "\n\n"
     else if child.name = "#text" then (if child.text.isEmpty then "" else child.text ++ "\n\n")
     else wrapUnknown child ++ "\n\n") ++ renderDescChildren rest

/-- Embeds `Converter::renderDescription`. -/
def renderDescription (desc : XmlNode) : String :=
  renderDescChildren desc.children

/-- The member name of `Converter::renderMember` (line 113). -/
def memberNameText (member : XmlNode) : String :=
  match member.child? "name" with
  | some n => nodeText n
  | none => "member"

/-- The definition text of `Converter::renderMember` (line 114). -/
def memberDefText (member : XmlNode) : String :=
  match member.child? "definition" with
  | some n => nodeText n
  | none => ""

/-- The argsstring text of `Converter::renderMember` (line 115). -/
def memberArgsText (member : XmlNode) : String :=
  match member.child? "argsstring" with
  | some n => nodeText n
  | none => ""

/-- Embeds `Converter::renderMember`. -/
def renderMember (cfg : Config) (member : XmlNode) (level : Int) : String :=
  let signature :=
    if (memberDefText member).isEmpty then memberNameText member
    else memberDefText member ++ memberArgsText member
  heading level cfg.headingOffset ++ " " ++ signature ++ "\n\n" ++
    (match member.child? "briefdescription" with
      | some b => renderDescription b
      | none => "") ++
    (match member.child? "detaileddescription" with
      | some d => renderDescription d
      | none => "")

/-- The member loop of `Converter::renderCompound` (lines 102-106). -/
def renderSectionMembers (cfg : Config) : List XmlNode → String
  | [] => ""
  | member :: rest =>
    (if member.name = "memberdef" then renderMember cfg member 3 else "") ++
      renderSectionMembers cfg rest

/-- The section loop of `Converter::renderCompound` (lines 99-107). -/
def renderSections (cfg : Config) : List XmlNode → String
  | [] => ""
  | sect :: rest =>
    (let stitle :=
      match sect.attr? "kind" with
      | some k => k.value
      | none => "Members"
    "\n" ++ heading 2 cfg.headingOffset ++ " " ++ stitle ++ "\n\n" ++
      renderSectionMembers cfg sect.children) ++
    renderSections cfg rest

/-- Embeds `Converter::renderCompound`. -/
def renderCompound (cfg : Config) (compound : XmlNode) : String :=
  let name :=
    match compound.child? "compoundname" with
    | some n => nodeText n
    | none => "Unknown"
  let kind :=
    match compound.attr? "kind" with
    | some k => k.value
    | none => "compound"
  heading 1 cfg.headingOffset ++ " " ++ name ++ " (" ++ kind ++ ")\n\n" ++
    (match compound.child? "briefdescription" with
      | some b => renderDescription b
      | none => "") ++
    (match compound.child? "detaileddescription" with
      | some d => renderDescription d
      | none => "") ++
    renderSections cfg (compound.childrenNamed "sectiondef")

/-- The compound loop of `Converter::renderDocument` (lines 73-75). -/
def renderCompounds (cfg : Config) : List XmlNode → String
  | [] => ""
  | comp :: rest => renderCompound cfg comp ++ "\n" ++ renderCompounds cfg rest

/-- Embeds `Converter::renderDocument`: the top-level dispatch. -/
def renderDocument (cfg : Config) (root : XmlNode) : String :=
  if root.name = "doxygen" then
    renderCompounds cfg (root.childrenNamed "compounddef")
  else if root.name = "compounddef" then renderCompound cfg root
  else wrapUnknown root

/-- Body-row rendering as described by the spec for every row after the
first: each row is a `<tr>` of `<td>` cells (used to state the table
claim; compared against `renderTableRows` below). -/
def renderBodyRows : List (List String) → String
  | [] => ""
  | cells :: rest => renderRow false cells ++ renderBodyRows rest

/-- Default configuration record (all renderer-irrelevant fields empty,
heading offset 0). -/
def cfg0 : Config := {}

/-- Concrete sample: `<xrefsect>hi</xrefsect>`, an element with no
specific rendering rule. -/
def xrefsectNode : XmlNode := .mk "xrefsect" "" [] [.mk "#text" "hi" [] []]

/-- Concrete sample: a table with a single one-cell row. -/
def tableOneRow : XmlNode :=
  .mk "table" "" [] [.mk "row" "" [] [.mk "entry" "" [] [.mk "#text" "x" [] []]]]

/-- Concrete sample: a table whose only `row` child has no `entry` cell
(plus a stray text child). -/
def tableNoCells : XmlNode :=
  .mk "table" "" [] [.mk "row" "" [] [.mk "para" "" [] []], .mk "#text" "x" [] []]

/-- Concrete sample: a member with a present-but-empty `definition` child,
a nonempty `argsstring`, and no `name` child. -/
def memberEmptyDef : XmlNode :=
  .mk "memberdef" "" []
    [.mk "definition" "" [] [], .mk "argsstring" "" [] [.mk "#text" "(int)" [] []]]

/-- Concrete sample: a member with nonempty `definition` text and an
`argsstring`. -/
def memberWithDef : XmlNode :=
  .mk "memberdef" "" []
    [.mk "name" "" [] [.mk "#text" "f" [] []],
     .mk "definition" "" [] [.mk "#text" "int f" [] []],
     .mk "argsstring" "" [] [.mk "#text" "(int)" [] []]]

/-! ## Helper lemmas -/

theorem parseUntil_not_found (marker : List Char) :
    ∀ s : List Char, ¬ marker <:+: s → parseUntil marker s = .error .unexpectedEof := by
  intro s
  induction s with
  | nil =>
    intro h
    rw [parseUntil]
    rw [if_neg]
    intro hp
    obtain ⟨t, ht⟩ := List.isPrefixOf_iff_prefix.mp hp
    exact h ⟨[], t, by simpa using ht⟩
  | cons c rest ih =>
    intro h
    rw [parseUntil]
    rw [if_neg, ih]
    · rfl
    · intro hi
      obtain ⟨s, t, hst⟩ := hi
      exact h ⟨c :: s, t, by simp [hst]⟩
    · intro hp
      obtain ⟨t, ht⟩ := List.isPrefixOf_iff_prefix.mp hp
      exact h ⟨[], t, by simpa using ht⟩

theorem renderTableRows_pos (rows : List (List String)) :
    ∀ r : Nat, r ≠ 0 → renderTableRows r rows = renderBodyRows rows := by
  induction rows with
  | nil =>
    intro r _
    rw [renderTableRows, renderBodyRows]
  | cons cells rest ih =>
    intro r hr
    rw [renderTableRows, renderBodyRows]
    have hb : (r == 0) = false := by
      simp [hr]
    rw [hb, ih (r + 1) (by omega)]

theorem collectCells_nil_of_no_entry :
    ∀ l : List XmlNode, (∀ e ∈ l, e.name ≠ "entry") → collectCells l = [] := by
  intro l
  induction l with
  | nil => intro _; rw [collectCells]
  | cons e rest ih =>
    intro h
    rw [collectCells]
    rw [if_neg (h e (List.mem_cons_self e rest))]
    exact ih fun x hx => h x (List.mem_cons_of_mem e hx)

theorem collectRows_nil_of_no_cells :
    ∀ l : List XmlNode, (∀ row ∈ l, row.name = "row" → ∀ e ∈ row.children, e.name ≠ "entry") →
      collectRows l = [] := by
  intro l
  induction l with
  | nil => intro _; rw [collectRows]
  | cons row rest ih =>
    intro h
    rw [collectRows]
    have hrest := ih fun x hx => h x (List.mem_cons_of_mem row hx)
    by_cases hr : row.name = "row"
    · rw [if_pos hr]
      have hc : collectCells row.children = [] :=
        collectCells_nil_of_no_entry _ (h row (List.mem_cons_self row rest) hr)
      simp only [hc, List.isEmpty_nil, if_pos]
      exact hrest
    · rw [if_neg hr]
      exact hrest

theorem collectRows_skip_empty_row (row : XmlNode) (hr : row.name = "row")
    (hc : collectCells row.children = []) :
    ∀ l1 l2 : List XmlNode, collectRows (l1 ++ row :: l2) = collectRows (l1 ++ l2) := by
  intro l1 l2
  induction l1 with
  | nil =>
    simp only [List.nil_append]
    rw [collectRows]
    simp only [if_pos hr, hc, List.isEmpty_nil, if_pos]
  | cons x rest ih =>
    simp only [List.cons_append]
    rw [collectRows]
    conv_rhs => rw [collectRows]
    by_cases hx : x.name = "row"
    · simp only [if_pos hx, ih]
    · simp only [if_neg hx, ih]

/-! ## Claim theorems -/

/-- Claim C1: inline rendering is a total function (it is defined for
every node), and for every node whose tag name is not one of the
specifically handled tags, the renderer emits a block wrapper whose class
is exactly `doxygen-` followed by the tag name, with the children
inline-rendered inside. -/
theorem renderNodeInline_unknown_fallback (node : XmlNode)
    (h : node.name ∉ (["#text", "bold", "emphasis", "computeroutput", "ref", "itemizedlist",
      "orderedlist", "table", "programlisting", "para"] : List String)) :
    renderNodeInline node =
      "<div class=\"doxygen-" ++ node.name ++ "\">" ++ renderInlineList node.children ++
        "</div>" := by
  simp only [List.mem_cons, List.not_mem_nil, or_false, not_or] at h
  obtain ⟨h1, h2, h3, h4, h5, h6, h7, h8, h9, h10⟩ := h
  rw [renderNodeInline]
  rw [if_neg h1, if_neg h2, if_neg h3, if_neg h4, if_neg h5, if_neg h6, if_neg h7, if_neg h8,
    if_neg h9, if_neg h10]
  rw [wrapUnknown]

/-- Witness for C1 at the spec's example `<xrefsect>hi</xrefsect>`. -/
theorem renderNodeInline_unknown_fallback_witness :
    (xrefsectNode.name ∉ (["#text", "bold", "emphasis", "computeroutput", "ref", "itemizedlist",
      "orderedlist", "table", "programlisting", "para"] : List String)) ∧
    renderNodeInline xrefsectNode = "<div class=\"doxygen-xrefsect\">hi</div>" := by
  refine ⟨by decide, ?_⟩
  rw [renderNodeInline_unknown_fallback xrefsectNode (by decide)]
  simp only [xrefsectNode, renderInlineList, renderNodeInline, XmlNode.name, XmlNode.text,
    XmlNode.children]
  rfl

/-- Claim C2: for every nominal level and every integer offset, the
heading marker has exactly `clamp(level + offset, 1, 6)` characters,
always between 1 and 6; in particular level 1 with offset 10 gives 6. -/
theorem heading_clamp :
    (∀ level offset : Int,
      (heading level offset).length = (min 6 (max 1 (level + offset))).toNat ∧
      1 ≤ (heading level offset).length ∧ (heading level offset).length ≤ 6) ∧
    (heading 1 10).length = 6 := by
  constructor
  · intro level offset
    have hlen : (heading level offset).length =
        (if (if level + offset < 1 then 1 else level + offset) > 6 then 6
         else if level + offset < 1 then 1 else level + offset).toNat := by
      simp [heading, String.length]
    rw [hlen]
    refine ⟨?_, ?_, ?_⟩ <;> (split <;> split <;> omega)
  · rfl

/-- Claim C8: a `row` child with zero `entry` cells is skipped entirely
(removing it from any position leaves the rendering unchanged); and
whenever the collected rows are nonempty, the first collected row renders
as the header row and all subsequent ones as body rows, each cell being
the inline rendering of the cell's children (as recorded by
`collectCells` inside `collectRows`). -/
theorem renderTable_header_and_skip :
    (∀ (name text : String) (attrs : List XmlAttribute) (l1 l2 : List XmlNode) (row : XmlNode),
        row.name = "row" → (∀ e ∈ row.children, e.name ≠ "entry") →
        renderTable (XmlNode.mk name text attrs (l1 ++ row :: l2)) =
          renderTable (XmlNode.mk name text attrs (l1 ++ l2))) ∧
    (∀ (node : XmlNode) (row0 : List String) (rest : List (List String)),
        collectRows node.children = row0 :: rest →
        renderTable node =
          "<table class=\"doxygen-table\">\n" ++ renderRow true row0 ++ renderBodyRows rest ++
            "</table>\n") := by
  constructor
  · intro name text attrs l1 l2 row hr hnoe
    rw [renderTable, renderTable]
    simp only [XmlNode.children]
    rw [collectRows_skip_empty_row row hr (collectCells_nil_of_no_entry _ hnoe)]
  · intro node row0 rest hrows
    rw [renderTable]
    simp only [hrows, List.isEmpty_cons, if_neg]
    rw [renderTableRows]
    have h0 : ((0 : Nat) == 0) = true := by decide
    rw [h0, renderTableRows_pos rest 1 (by omega)]
    simp [String.append_assoc]

/-- Witness for C8: a single-row table renders that row as a header row
with no body rows. -/
theorem renderTable_header_and_skip_witness :
    (collectRows tableOneRow.children = ["x"] :: []) ∧
    renderTable tableOneRow = "<table class=\"doxygen-table\">\n<tr><th>x</th></tr>\n</table>\n" := by
  have hx : collectRows tableOneRow.children = ["x"] :: [] := by
    simp only [tableOneRow, XmlNode.children, collectRows, collectCells, renderInlineList,
      renderNodeInline, XmlNode.name, XmlNode.text]
    rfl
  refine ⟨hx, ?_⟩
  rw [renderTable_header_and_skip.2 tableOneRow ["x"] [] hx]
  rfl

/-- Claim C9: rendering is deterministic; rendering equal trees with the
same options record yields byte-identical output. -/
theorem renderDocument_deterministic (cfg : Config) (t1 t2 : XmlNode) (h : t1 = t2) :
    renderDocument cfg t1 = renderDocument cfg t2 := by
  rw [h]

/-- Witness for C9 at a concrete tree. -/
theorem renderDocument_deterministic_witness :
    (xrefsectNode = xrefsectNode) ∧
    renderDocument cfg0 xrefsectNode = renderDocument cfg0 xrefsectNode :=
  ⟨rfl, renderDocument_deterministic cfg0 xrefsectNode xrefsectNode rfl⟩

/-- Claim C10: a table in which no `row` child has an `entry` cell
(including a table with no rows at all) renders to the empty string. -/
theorem renderTable_empty_of_no_cells (node : XmlNode)
    (h : ∀ row ∈ node.children, row.name = "row" → ∀ e ∈ row.children, e.name ≠ "entry") :
    renderTable node = "" := by
  rw [renderTable]
  simp only [collectRows_nil_of_no_cells _ h, List.isEmpty_nil, if_pos]

/-- Witness for C10 at a concrete table with one empty row and a stray
text child. -/
theorem renderTable_empty_of_no_cells_witness :
    (∀ row ∈ tableNoCells.children, row.name = "row" →
      ∀ e ∈ row.children, e.name ≠ "entry") ∧
    renderTable tableNoCells = "" := by
  refine ⟨by decide, ?_⟩
  exact renderTable_empty_of_no_cells tableNoCells (by decide)

/-- Claim C3 counterexample: parsing the bare document text
`a &lt;b&gt; &amp; c` does not yield a text node; the parse fails because
a document must start with a tag. -/
theorem parse_bare_text_counterexample :
    parse "a &lt;b&gt; &amp; c" = .error .expectedLt := by rfl

/-- Claim C3 (amended): entity decoding replaces exactly the five named
entities and passes every other character (including any other `&...;`
sequence) through literally; parsing a document whose element content is
`a &lt;b&gt; &amp; c` yields a text-node child with content `a <b> & c`
(parsing the bare text as a whole document fails instead, see the
counterexample). -/
theorem decodeEntities_spec :
    (∀ rest : List Char,
      decodeEntities ('&' :: 'l' :: 't' :: ';' :: rest) = '<' :: decodeEntities rest) ∧
    (∀ rest : List Char,
      decodeEntities ('&' :: 'g' :: 't' :: ';' :: rest) = '>' :: decodeEntities rest) ∧
    (∀ rest : List Char,
      decodeEntities ('&' :: 'a' :: 'm' :: 'p' :: ';' :: rest) = '&' :: decodeEntities rest) ∧
    (∀ rest : List Char,
      decodeEntities ('&' :: 'q' :: 'u' :: 'o' :: 't' :: ';' :: rest) = '"' :: decodeEntities rest) ∧
    (∀ rest : List Char,
      decodeEntities ('&' :: 'a' :: 'p' :: 'o' :: 's' :: ';' :: rest) = '\'' :: decodeEntities rest) ∧
    (∀ (c : Char) (rest : List Char), c ≠ '&' →
      decodeEntities (c :: rest) = c :: decodeEntities rest) ∧
    (∀ rest : List Char,
      List.isPrefixOf ('l' :: 't' :: ';' :: []) rest = false →
      List.isPrefixOf ('g' :: 't' :: ';' :: []) rest = false →
      List.isPrefixOf ('a' :: 'm' :: 'p' :: ';' :: []) rest = false →
      List.isPrefixOf ('q' :: 'u' :: 'o' :: 't' :: ';' :: []) rest = false →
      List.isPrefixOf ('a' :: 'p' :: 'o' :: 's' :: ';' :: []) rest = false →
      decodeEntities ('&' :: rest) = '&' :: decodeEntities rest) ∧
    parse "<para>a &lt;b&gt; &amp; c</para>" =
      .ok (XmlNode.mk "para" "" [] [XmlNode.mk "#text" "a <b> & c" [] []]) := by
  refine ⟨fun rest => by rfl, fun rest => by rfl, fun rest => by rfl, fun rest => by rfl,
    fun rest => by rfl, ?_, ?_, by rfl⟩
  · intro c rest h
    rw [decodeEntities.eq_def]
    split
    all_goals first | rfl | simp_all
  · intro rest h1 h2 h3 h4 h5
    rw [decodeEntities.eq_def]
    split
    all_goals try simp_all [List.isPrefixOf]
    case h_8 hne heq =>
      exact absurd heq.1.symm hne

/-- Witness for C3 at concrete inputs: a non-ampersand character and an
unknown entity-like sequence both pass through unchanged. -/
theorem decodeEntities_spec_witness :
    ('x' ≠ '&') ∧
    decodeEntities ('x' :: 'y' :: []) = 'x' :: decodeEntities ('y' :: []) ∧
    (List.isPrefixOf ('l' :: 't' :: ';' :: []) ('f' :: 'o' :: 'o' :: ';' :: []) = false) ∧
    (List.isPrefixOf ('g' :: 't' :: ';' :: []) ('f' :: 'o' :: 'o' :: ';' :: []) = false) ∧
    (List.isPrefixOf ('a' :: 'm' :: 'p' :: ';' :: []) ('f' :: 'o' :: 'o' :: ';' :: []) = false) ∧
    (List.isPrefixOf ('q' :: 'u' :: 'o' :: 't' :: ';' :: []) ('f' :: 'o' :: 'o' :: ';' :: []) = false) ∧
    (List.isPrefixOf ('a' :: 'p' :: 'o' :: 's' :: ';' :: []) ('f' :: 'o' :: 'o' :: ';' :: []) = false) ∧
    decodeEntities ('&' :: 'f' :: 'o' :: 'o' :: ';' :: []) =
      '&' :: decodeEntities ('f' :: 'o' :: 'o' :: ';' :: []) := by
  refine ⟨by decide, decodeEntities_spec.2.2.2.2.2.1 'x' ('y' :: []) (by decide),
    by decide, by decide, by decide, by decide, by decide,
    decodeEntities_spec.2.2.2.2.2.2.1 ('f' :: 'o' :: 'o' :: ';' :: [])
      (by decide) (by decide) (by decide) (by decide) (by decide)⟩

/-- Claim C4 counterexample: in `<a>x<!--c-->y</a>` the character data
before and after the comment is coalesced into ONE text child `xy`, not
two separate text children. -/
theorem parse_comment_no_flush_counterexample :
    parse "<a>x<!--c-->y</a>" = .ok (XmlNode.mk "a" "" [] [XmlNode.mk "#text" "xy" [] []]) ∧
    (XmlNode.mk "a" "" [] [XmlNode.mk "#text" "xy" [] []]).children.length = 1 := by
  exact ⟨by rfl, by rfl⟩

/-- Claim C4 (amended): adjacent character data is coalesced into a
single text-node child, and a CDATA section forces a flush of any pending
coalesced text (so CDATA content is never merged into surrounding text);
a comment boundary, however, does NOT flush: the pending buffer is kept
and character data on both sides of a comment coalesces into one text
node. -/
theorem parseContent_boundaries :
    (∀ (fuel : Nat) (name : String) (buf : List Char) (acc : List XmlNode) (c : Char)
        (rest : List Char), c ≠ '<' →
        parseContent (fuel + 1) name buf acc (c :: rest) =
          parseContent fuel name (buf ++ [c]) acc rest) ∧
    (∀ (fuel : Nat) (name : String) (buf : List Char) (acc : List XmlNode)
        (r0 body r1 : List Char),
        parseUntil ('-' :: '-' :: '>' :: []) r0 = .ok (body, r1) →
        parseContent (fuel + 1) name buf acc ('<' :: '!' :: '-' :: '-' :: r0) =
          parseContent fuel name buf acc (r1.drop 3)) ∧
    (∀ (fuel : Nat) (name : String) (buf : List Char) (acc : List XmlNode)
        (r0 body r1 : List Char),
        parseUntil (']' :: ']' :: '>' :: []) r0 = .ok (body, r1) →
        parseContent (fuel + 1) name buf acc
            ('<' :: '!' :: '[' :: 'C' :: 'D' :: 'A' :: 'T' :: 'A' :: '[' :: r0) =
          parseContent fuel name []
            (flushText buf acc ++ [XmlNode.mk "#text" (String.mk body) [] []]) (r1.drop 3)) ∧
    parse "<a>x<!--c-->y</a>" = .ok (XmlNode.mk "a" "" [] [XmlNode.mk "#text" "xy" [] []]) ∧
    parse "<a>x<![CDATA[y]]>z</a>" =
      .ok (XmlNode.mk "a" "" []
        [XmlNode.mk "#text" "x" [] [], XmlNode.mk "#text" "y" [] [],
         XmlNode.mk "#text" "z" [] []]) := by
  refine ⟨?_, ?_, ?_, by rfl, by rfl⟩
  · intro fuel name buf acc c rest h
    rw [parseContent.eq_def]
    split
    all_goals first | rfl | simp_all
  · intro fuel name buf acc r0 body r1 hpu
    rw [parseContent.eq_def]
    simp only [hpu]
  · intro fuel name buf acc r0 body r1 hpu
    rw [parseContent.eq_def]
    simp only [hpu]

/-- Witness for C4 at concrete inputs: a text step, a comment step (no
flush), and a CDATA step (flush and verbatim text node). -/
theorem parseContent_boundaries_witness :
    ('x' ≠ '<') ∧
    parseContent 1 "a" [] [] ('x' :: []) = parseContent 0 "a" ('x' :: []) [] [] ∧
    (parseUntil ('-' :: '-' :: '>' :: []) ('c' :: '-' :: '-' :: '>' :: []) =
      .ok ('c' :: [], '-' :: '-' :: '>' :: [])) ∧
    parseContent 1 "a" ('x' :: []) [] ('<' :: '!' :: '-' :: '-' :: 'c' :: '-' :: '-' :: '>' :: []) =
      parseContent 0 "a" ('x' :: []) [] [] ∧
    (parseUntil (']' :: ']' :: '>' :: []) ('y' :: ']' :: ']' :: '>' :: []) =
      .ok ('y' :: [], ']' :: ']' :: '>' :: [])) ∧
    parseContent 1 "a" ('x' :: []) []
        ('<' :: '!' :: '[' :: 'C' :: 'D' :: 'A' :: 'T' :: 'A' :: '[' :: 'y' :: ']' :: ']' :: '>' :: []) =
      parseContent 0 "a" []
        (flushText ('x' :: []) [] ++ [XmlNode.mk "#text" "y" [] []]) [] := by
  refine ⟨by decide, parseContent_boundaries.1 0 "a" [] [] 'x' [] (by decide), by rfl,
    ?_, by rfl, ?_⟩
  · exact parseContent_boundaries.2.1 0 "a" ('x' :: []) [] ('c' :: '-' :: '-' :: '>' :: [])
      ('c' :: []) ('-' :: '-' :: '>' :: []) (by rfl)
  · exact parseContent_boundaries.2.2.1 0 "a" ('x' :: []) [] ('y' :: ']' :: ']' :: '>' :: [])
      ('y' :: []) (']' :: ']' :: '>' :: []) (by rfl)

/-- Claim C5 counterexample: end of input reached inside an element's
content before the closing tag does NOT fail; the element parsed so far
is returned. -/
theorem parse_eof_in_content_counterexample :
    parse "<a>hello" = .ok (XmlNode.mk "a" "" [] [XmlNode.mk "#text" "hello" [] []]) ∧
    (parse "<a>hello").isOk = true := by
  exact ⟨by rfl, by rfl⟩

/-- Claim C5 (amended): end of input while scanning for a marker
(`parseUntil`), a missing `=`, an unterminated attribute value and a
missing `>` each abort the parse with an error and no tree; but end of
input inside element content before the closing tag does NOT fail — the
content loop returns the children built so far. -/
theorem parse_eof_spec :
    (∀ marker s : List Char, ¬ marker <:+: s → parseUntil marker s = .error .unexpectedEof) ∧
    (∀ (fuel : Nat) (name : String) (buf : List Char) (acc : List XmlNode),
      parseContent (fuel + 1) name buf acc [] = .ok (flushText buf acc, [])) ∧
    parse "<?xml version=\"1.0\"" = .error .unexpectedEof ∧
    parse "<a href" = .error .expectedEq ∧
    parse "<a x=\"1" = .error .unterminatedAttr ∧
    parse "<a x=\"1\"" = .error .expectedGt ∧
    parse "<a>hello" = .ok (XmlNode.mk "a" "" [] [XmlNode.mk "#text" "hello" [] []]) := by
  refine ⟨parseUntil_not_found, ?_, by rfl, by rfl, by rfl, by rfl, by rfl⟩
  intro fuel name buf acc
  rw [parseContent.eq_def]

/-- Witness for C5 at concrete inputs. -/
theorem parse_eof_spec_witness :
    (¬ ('-' :: '-' :: '>' :: []) <:+: ('a' :: 'b' :: [])) ∧
    parseUntil ('-' :: '-' :: '>' :: []) ('a' :: 'b' :: []) = .error .unexpectedEof ∧
    parseContent 1 "a" ('x' :: []) [] [] = .ok (flushText ('x' :: []) [], []) := by
  exact ⟨by decide, parse_eof_spec.1 _ _ (by decide), parse_eof_spec.2.1 0 "a" _ _⟩

/-- Claim C6: a closing tag whose name differs from the currently open
element's name aborts the parse with a mismatched-tag error, and no tree
is returned; concretely `<a><b></a>` fails. -/
theorem parse_mismatched_close_spec :
    (∀ (fuel : Nat) (name : String) (buf : List Char) (acc : List XmlNode) (r0 : List Char),
      (parseName r0).1 ≠ name →
      parseContent (fuel + 1) name buf acc ('<' :: '/' :: r0) =
        .error (.mismatchedTag (parseName r0).1 name)) ∧
    parse "<a><b></a>" = .error (.mismatchedTag "a" "b") := by
  refine ⟨?_, by rfl⟩
  intro fuel name buf acc r0 h
  rw [parseContent.eq_def]
  simp only [if_pos h]

/-- Witness for C6 at a concrete closing tag `</a>` inside `<b>`. -/
theorem parse_mismatched_close_spec_witness :
    ((parseName ('a' :: '>' :: [])).1 ≠ "b") ∧
    parseContent 1 "b" [] [] ('<' :: '/' :: 'a' :: '>' :: []) =
      .error (.mismatchedTag (parseName ('a' :: '>' :: [])).1 "b") := by
  exact ⟨by decide, parse_mismatched_close_spec.1 0 "b" [] [] _ (by decide)⟩

/-- Claim C7 counterexample: a member whose `definition` child is present
but has empty text, with argsstring `(int)` and no `name` child, renders
the fallback name `member`, not the definition-plus-argsstring
signature. -/
theorem renderMember_counterexample :
    (memberEmptyDef.child? "definition").isSome = true ∧
    renderMember cfg0 memberEmptyDef 3 = "### member\n\n" ∧
    renderMember cfg0 memberEmptyDef 3 ≠
      heading 3 cfg0.headingOffset ++ " " ++
        (memberDefText memberEmptyDef ++ memberArgsText memberEmptyDef) ++ "\n\n" := by
  have heval : renderMember cfg0 memberEmptyDef 3 = "### member\n\n" := by
    simp [renderMember, memberNameText, memberDefText, memberArgsText, heading, cfg0,
      memberEmptyDef, XmlNode.child?, XmlNode.children, List.find?, nodeText, nodeTextList,
      XmlNode.name, XmlNode.text]
    rfl
  refine ⟨by decide, heval, ?_⟩
  rw [heval]
  have hd : memberDefText memberEmptyDef = "" := by
    simp [memberDefText, memberEmptyDef, XmlNode.child?, XmlNode.children, List.find?,
      nodeText, nodeTextList, XmlNode.name, XmlNode.text]
  have ha : memberArgsText memberEmptyDef = "(int)" := by
    simp [memberArgsText, memberEmptyDef, XmlNode.child?, XmlNode.children, List.find?,
      nodeText, nodeTextList, XmlNode.name, XmlNode.text]
  rw [hd, ha]
  decide

/-- Claim C7 (amended): the displayed member signature is the
`definition` text concatenated with the `argsstring` text whenever the
extracted definition text is nonempty (a missing `definition` child
yields empty text), and is the bare member name (default `member` when
the `name` child is absent) whenever the definition text is empty — in
particular a present-but-empty `definition` child falls back to the
name. -/
theorem renderMember_signature (cfg : Config) (member : XmlNode) (level : Int) :
    ((memberDefText member).isEmpty = false →
      ∃ rest, renderMember cfg member level =
        heading level cfg.headingOffset ++ " " ++
          (memberDefText member ++ memberArgsText member) ++ "\n\n" ++ rest) ∧
    ((memberDefText member).isEmpty = true →
      ∃ rest, renderMember cfg member level =
        heading level cfg.headingOffset ++ " " ++ memberNameText member ++ "\n\n" ++ rest) := by
  constructor
  · intro h
    refine ⟨(match member.child? "briefdescription" with
        | some b => renderDescription b
        | none => "") ++
      (match member.child? "detaileddescription" with
        | some d => renderDescription d
        | none => ""), ?_⟩
    rw [renderMember]
    simp only [h, Bool.false_eq_true, if_false]
    simp [String.append_assoc]
  · intro h
    refine ⟨(match member.child? "briefdescription" with
        | some b => renderDescription b
        | none => "") ++
      (match member.child? "detaileddescription" with
        | some d => renderDescription d
        | none => ""), ?_⟩
    rw [renderMember]
    simp only [h, if_true]
    simp [String.append_assoc]

/-- Witness for C7 at concrete members: one with nonempty definition
text, one with a present-but-empty definition child. -/
theorem renderMember_signature_witness :
    ((memberDefText memberWithDef).isEmpty = false ∧
      ∃ rest, renderMember cfg0 memberWithDef 3 =
        heading 3 cfg0.headingOffset ++ " " ++
          (memberDefText memberWithDef ++ memberArgsText memberWithDef) ++ "\n\n" ++ rest) ∧
    ((memberDefText memberEmptyDef).isEmpty = true ∧
      ∃ rest, renderMember cfg0 memberEmptyDef 3 =
        heading 3 cfg0.headingOffset ++ " " ++ memberNameText memberEmptyDef ++ "\n\n" ++ rest) := by
  have h1 : (memberDefText memberWithDef).isEmpty = false := by
    simp [memberDefText, memberWithDef, XmlNode.child?, XmlNode.children, List.find?,
      nodeText, nodeTextList, XmlNode.name, XmlNode.text]
    rfl
  have h2 : (memberDefText memberEmptyDef).isEmpty = true := by
    simp [memberDefText, memberEmptyDef, XmlNode.child?, XmlNode.children, List.find?,
      nodeText, nodeTextList, XmlNode.name, XmlNode.text]
    rfl
  exact ⟨⟨h1, (renderMember_signature cfg0 memberWithDef 3).1 h1⟩,
    ⟨h2, (renderMember_signature cfg0 memberEmptyDef 3).2 h2⟩⟩
